import Mathlib

/-
Verification of the bounded-any crate: a runtime type-identification and
downcasting facility for types carrying non-'static lifetimes.

The crate works type-level: every supported type T has an associated
representative type T::Static (the AsStatic trait), obtained by erasing
lifetimes; identity checks compare TypeId::of::<T::Static>.  We embed the
type language as an inductive RustTy (lifetimes made explicit), the
AsStatic mapping as a partial function asStatic : RustTy → Option RustTy
(none models the absence of an impl, which in Rust is a compile-time
rejection), and Rust's TypeId of a 'static type by the type itself
(TypeId::of is injective on 'static types, so a static RustTy serves as
its own TypeId in the model).

References are modelled as (lifetime, type, address, value) tuples; the
unsafe pointer casts in the crate preserve address and bit pattern, which
the model reflects by copying addr and val unchanged.
-/

set_option autoImplicit false

namespace BoundedAny

/-- Lifetimes: the global lifetime or a named borrow lifetime. -/
inductive Lifetime where
  | static
  | named (n : Nat)
  deriving DecidableEq

mutual

/-- Rust types covered by the AsStatic impls of the crate: the trivial
types registered by the macros on lines 155-157 of lib.rs, shared and
exclusive references (with an explicit lifetime parameter), slices, Box,
Vec, tuples (as a TyList of component types; the crate has impls for
arities 1 through 5), fixed-size arrays (the crate has impls for lengths
0 through 32), Rc and Weak.  The Rust unit type is the constructor unit;
the tuple constructor is used for arities at least 1. -/
inductive RustTy where
  | i8 | i16 | i32 | i64 | isize
  | u8 | u16 | u32 | u64 | usize
  | str | string | bool | unit
  | ref (lt : Lifetime) (t : RustTy)
  | mutRef (lt : Lifetime) (t : RustTy)
  | slice (t : RustTy)
  | box (t : RustTy)
  | vec (t : RustTy)
  | tuple (ts : TyList)
  | array (n : Nat) (t : RustTy)
  | rc (t : RustTy)
  | weak (t : RustTy)

/-- A list of tuple component types. -/
inductive TyList where
  | nil
  | cons (t : RustTy) (ts : TyList)

end

deriving instance DecidableEq for RustTy
deriving instance DecidableEq for TyList

/-- Number of components of a tuple component list. -/
def TyList.length : TyList → Nat
  | .nil => 0
  | .cons _ ts => ts.length + 1

/-- Whether every component satisfies p. -/
def TyList.all (p : RustTy → Bool) : TyList → Bool
  | .nil => true
  | .cons t ts => p t && ts.all p

/-- Whether a Rust type is Sized: only the string slice type str and
slices are unsized among the shapes covered by the crate. -/
def isSized : RustTy → Bool
  | .str => false
  | .slice _ => false
  | _ => true

mutual

/-- The AsStatic associated-type mapping of lib.rs, as a partial
function: asStatic T = some S when the crate has an impl with
T::Static = S, and none when no impl exists (in Rust, a compile-time
rejection).  Cases follow the impls in source order:
trivial types (lines 146-157) map to themselves; references (117-124)
erase the lifetime to 'static and map the pointee; slices (127-131),
Box (134-136) and Vec (139-143) map the element, slices and Vec
requiring the element's representative to be Sized; tuples of arity
1-5 (160-203) map component-wise with every component's representative
Sized — except that line 163 reads `type Static = (A::Static);`, which
in Rust is a parenthesized type and NOT a 1-tuple, so the arity-1 impl
collapses (A,) to A::Static; arrays of length 0-32 (206-216) map the
element (Sized required); Rc (219-221) and Weak (224-226) map the
pointee. -/
def asStatic : RustTy → Option RustTy
  | .i8 => some .i8
  | .i16 => some .i16
  | .i32 => some .i32
  | .i64 => some .i64
  | .isize => some .isize
  | .u8 => some .u8
  | .u16 => some .u16
  | .u32 => some .u32
  | .u64 => some .u64
  | .usize => some .usize
  | .str => some .str
  | .string => some .string
  | .bool => some .bool
  | .unit => some .unit
  | .ref _ t => (asStatic t).map (RustTy.ref .static)
  | .mutRef _ t => (asStatic t).map (RustTy.mutRef .static)
  | .slice t =>
    match asStatic t with
    | some s => if isSized s then some (.slice s) else none
    | none => none
  | .box t => (asStatic t).map RustTy.box
  | .vec t =>
    match asStatic t with
    | some s => if isSized s then some (.vec s) else none
    | none => none
  | .tuple (.cons a .nil) =>
    match asStatic a with
    | some s => if isSized s then some s else none
    | none => none
  | .tuple ts =>
    if 2 ≤ ts.length ∧ ts.length ≤ 5 then
      match asStaticTys ts with
      | some ss => if ss.all isSized then some (.tuple ss) else none
      | none => none
    else none
  | .array n t =>
    match asStatic t with
    | some s => if n ≤ 32 ∧ isSized s then some (.array n s) else none
    | none => none
  | .rc t => (asStatic t).map RustTy.rc
  | .weak t => (asStatic t).map RustTy.weak

/-- Component-wise mapping of a tuple component list: defined when every
component has a representative. -/
def asStaticTys : TyList → Option TyList
  | .nil => some .nil
  | .cons t ts =>
    match asStatic t, asStaticTys ts with
    | some s, some ss => some (.cons s ss)
    | _, _ => none

end

/-- Runtime values, enough to distinguish concrete scenarios. -/
inductive Val where
  | intV (n : Int)
  | strV (s : String)
  deriving DecidableEq

/-- A borrowed reference: the lifetime of the borrow, the static type of
the pointee, the address pointed to and the pointed-to value.  The same
structure models shared and exclusive references. -/
structure Ref where
  lt : Lifetime
  ty : RustTy
  addr : Nat
  val : Val
  deriving DecidableEq

/-- BoundedTypeId (lib.rs line 9): a TypeId plus a PhantomData lifetime
tag.  The phantom tag holds no runtime data and the derived PartialEq,
Eq and Hash see only the TypeId, so the model keeps just the TypeId of
the representative type. -/
structure BoundedTypeId where
  id : RustTy
  deriving DecidableEq

/-- The derive list on BoundedTypeId, from lib.rs line 8. -/
def boundedTypeIdDerives : List String :=
  ["Clone", "Copy", "Debug", "Hash", "PartialEq", "Eq"]

/-- BoundedTypeId::of::<T> (lib.rs lines 14-16): the TypeId of
T::Static.  Defined when T has an AsStatic impl; in Rust the other case
does not compile. -/
def BoundedTypeId.of? (T : RustTy) : Option BoundedTypeId :=
  (asStatic T).map BoundedTypeId.mk

/-- The derived Hash on BoundedTypeId hashes the fields in order;
PhantomData's Hash impl writes nothing, so for any hasher f the hash is
the hash of the stored TypeId. -/
def BoundedTypeId.hashWith (f : RustTy → Nat) (b : BoundedTypeId) : Nat :=
  f b.id

/-- BoundedAnyRef<'a> (lib.rs line 23): a pair of an erased &'a Any and
a TypeId.  The erased reference contributes its borrow lifetime lt, its
dynamic type dynTy (the TypeId its vtable reports), the address and the
value; storedTy is the TypeId kept in the second field. -/
structure BoundedAnyRef where
  lt : Lifetime
  dynTy : RustTy
  addr : Nat
  val : Val
  storedTy : RustTy
  deriving DecidableEq

/-- From<&'a T> for BoundedAnyRef<'a> (lib.rs lines 26-33): the unsafe
cast reinterprets &'a T as &T::Static, keeping address and bit pattern;
coerced to &Any its dynamic type is T::Static, and the second field is
set to TypeId::of::<T::Static>.  The impl requires T: AsStatic with
T::Static: Sized; none models the absence of that impl (a compile-time
rejection in Rust). -/
def BoundedAnyRef.from? (r : Ref) : Option BoundedAnyRef :=
  match asStatic r.ty with
  | some s => if isSized s then some ⟨r.lt, s, r.addr, r.val, s⟩ else none
  | none => none

/-- BoundedAnyRef::is::<T> (lib.rs lines 38-42): delegates to
Any::is::<T::Static>, which compares the erased reference's dynamic
TypeId with TypeId::of::<T::Static>.  The stored TypeId field is not
consulted. -/
def BoundedAnyRef.is (v : BoundedAnyRef) (T : RustTy) : Bool :=
  decide (asStatic T = some v.dynTy)

/-- BoundedAnyRef::downcast_ref::<T> (lib.rs lines 46-54): delegates to
Any::downcast_ref::<T::Static> (some exactly when the dynamic TypeId
matches TypeId::of::<T::Static>) and casts the resulting &T::Static
back to &'a T, keeping address and value and carrying the lifetime 'a
of the original borrow. -/
def BoundedAnyRef.downcast_ref (v : BoundedAnyRef) (T : RustTy) : Option Ref :=
  if asStatic T = some v.dynTy then some ⟨v.lt, T, v.addr, v.val⟩ else none

/-- BoundedAnyMut<'a> (lib.rs line 61): a pair of an erased &'a mut Any
and a TypeId, modelled like BoundedAnyRef. -/
structure BoundedAnyMut where
  lt : Lifetime
  dynTy : RustTy
  addr : Nat
  val : Val
  storedTy : RustTy
  deriving DecidableEq

/-- From<&'a mut T> for BoundedAnyMut<'a> (lib.rs lines 64-71),
mirroring the shared-reference impl. -/
def BoundedAnyMut.from? (r : Ref) : Option BoundedAnyMut :=
  match asStatic r.ty with
  | some s => if isSized s then some ⟨r.lt, s, r.addr, r.val, s⟩ else none
  | none => none

/-- BoundedAnyMut::is::<T> (lib.rs lines 78-82), duplicated in the
source from BoundedAnyRef. -/
def BoundedAnyMut.is (v : BoundedAnyMut) (T : RustTy) : Bool :=
  decide (asStatic T = some v.dynTy)

/-- BoundedAnyMut::downcast_ref::<T> (lib.rs lines 88-96): takes &self
yet returns Option<&'a T> with the full lifetime 'a. -/
def BoundedAnyMut.downcast_ref (v : BoundedAnyMut) (T : RustTy) : Option Ref :=
  if asStatic T = some v.dynTy then some ⟨v.lt, T, v.addr, v.val⟩ else none

/-- BoundedAnyMut::downcast_mut::<T> (lib.rs lines 100-108): takes
&mut self for the duration of the call, does not modify the view, and
returns Option<&'a mut T> whose lifetime is the full 'a, produced by a
raw-pointer cast that keeps address and value. -/
def BoundedAnyMut.downcast_mut (v : BoundedAnyMut) (T : RustTy) : Option Ref :=
  if asStatic T = some v.dynTy then some ⟨v.lt, T, v.addr, v.val⟩ else none

/-- Inversion of BoundedAnyRef.from?: a successfully constructed view
records the representative of the source type as the erased reference's
dynamic type, copies lifetime, address and value from the borrow, and
stores that same representative TypeId in the second field. -/
theorem ref_from?_spec (r : Ref) (v : BoundedAnyRef)
    (h : BoundedAnyRef.from? r = some v) :
    asStatic r.ty = some v.dynTy ∧ isSized v.dynTy = true ∧
    v.lt = r.lt ∧ v.addr = r.addr ∧ v.val = r.val ∧ v.storedTy = v.dynTy := by
  unfold BoundedAnyRef.from? at h
  cases hS : asStatic r.ty with
  | none => rw [hS] at h; cases h
  | some s =>
    rw [hS] at h
    cases hz : isSized s with
    | false => simp [hz] at h
    | true =>
      simp only [hz, if_true] at h
      obtain rfl := (Option.some.inj h).symm
      simp [hS, hz]

/-- Inversion of BoundedAnyMut.from?, mirroring the shared-view case. -/
theorem mut_from?_spec (r : Ref) (w : BoundedAnyMut)
    (h : BoundedAnyMut.from? r = some w) :
    asStatic r.ty = some w.dynTy ∧ isSized w.dynTy = true ∧
    w.lt = r.lt ∧ w.addr = r.addr ∧ w.val = r.val ∧ w.storedTy = w.dynTy := by
  unfold BoundedAnyMut.from? at h
  cases hS : asStatic r.ty with
  | none => rw [hS] at h; cases h
  | some s =>
    rw [hS] at h
    cases hz : isSized s with
    | false => simp [hz] at h
    | true =>
      simp only [hz, if_true] at h
      obtain rfl := (Option.some.inj h).symm
      simp [hS, hz]

/-- C1: BoundedTypeId::of::<T>() equals BoundedTypeId::of::<U>() exactly
when T and U have the same representative type; in particular equality is
reflexive, and identifiers of types with distinct representatives are
unequal. -/
theorem bounded_type_id_eq_iff_same_representative (T U S S' : RustTy)
    (hT : asStatic T = some S) (hU : asStatic U = some S') :
    (BoundedTypeId.of? T = BoundedTypeId.of? U ↔ S = S') ∧
    BoundedTypeId.of? T = BoundedTypeId.of? T ∧
    (S ≠ S' → BoundedTypeId.of? T ≠ BoundedTypeId.of? U) := by
  unfold BoundedTypeId.of?
  rw [hT, hU]
  simp [BoundedTypeId.mk.injEq]

/-- Witness for C1 at two reference types that differ only in borrow
lifetime, hence share the representative &'static i32. -/
theorem bounded_type_id_eq_iff_same_representative_witness :
    (BoundedTypeId.of? (.ref (.named 1) .i32) = BoundedTypeId.of? (.ref (.named 2) .i32) ↔
      RustTy.ref .static .i32 = RustTy.ref .static .i32) ∧
    BoundedTypeId.of? (.ref (.named 1) .i32) = BoundedTypeId.of? (.ref (.named 1) .i32) ∧
    (RustTy.ref .static .i32 ≠ RustTy.ref .static .i32 →
      BoundedTypeId.of? (.ref (.named 1) .i32) ≠ BoundedTypeId.of? (.ref (.named 2) .i32)) :=
  bounded_type_id_eq_iff_same_representative (.ref (.named 1) .i32) (.ref (.named 2) .i32)
    (.ref .static .i32) (.ref .static .i32) (by decide) (by decide)

/-- C2: the round trip BoundedAnyRef::from(&v).downcast_ref::<T>()
returns Some of a reference identical to the original borrow: same
address, same value, and the lifetime of the original borrow (the Ref
returned is the input Ref itself, lifetime field included). -/
theorem downcast_ref_roundtrip (r : Ref) (v : BoundedAnyRef)
    (hv : BoundedAnyRef.from? r = some v) :
    v.downcast_ref r.ty = some r := by
  obtain ⟨hS, _, hlt, haddr, hval, _⟩ := ref_from?_spec r v hv
  unfold BoundedAnyRef.downcast_ref
  rw [if_pos hS, hlt, haddr, hval]

/-- Witness for C2 at the value 42 of type i32 behind a borrow with the
non-global lifetime named 3: the returned reference keeps that
lifetime. -/
theorem downcast_ref_roundtrip_witness :
    (BoundedAnyRef.mk (.named 3) .i32 100 (.intV 42) .i32).downcast_ref .i32 =
      some ⟨.named 3, .i32, 100, .intV 42⟩ :=
  downcast_ref_roundtrip ⟨.named 3, .i32, 100, .intV 42⟩
    ⟨.named 3, .i32, 100, .intV 42, .i32⟩ (by decide)

/-- C3: a view constructed from a borrow of type T answers is::<T>() with
true. -/
theorem view_self_identification (r : Ref) (v : BoundedAnyRef)
    (hv : BoundedAnyRef.from? r = some v) :
    v.is r.ty = true := by
  obtain ⟨hS, _⟩ := ref_from?_spec r v hv
  simp [BoundedAnyRef.is, hS]

/-- Witness for C3: concrete scenario A of the spec, the value 42 of
type i32: the view answers is::<i32>() with true, is::<u32>() with
false, and downcast_ref::<i32>() with Some(42). -/
theorem view_self_identification_witness :
    BoundedAnyRef.from? ⟨.named 0, .i32, 100, .intV 42⟩ =
      some ⟨.named 0, .i32, 100, .intV 42, .i32⟩ ∧
    (BoundedAnyRef.mk (.named 0) .i32 100 (.intV 42) .i32).is .i32 = true ∧
    (BoundedAnyRef.mk (.named 0) .i32 100 (.intV 42) .i32).is .u32 = false ∧
    (BoundedAnyRef.mk (.named 0) .i32 100 (.intV 42) .i32).downcast_ref .i32 =
      some ⟨.named 0, .i32, 100, .intV 42⟩ :=
  ⟨by decide,
   view_self_identification ⟨.named 0, .i32, 100, .intV 42⟩
     ⟨.named 0, .i32, 100, .intV 42, .i32⟩ (by decide),
   by decide, by decide⟩

/-- C4: against a type U whose representative differs from the viewed
type's representative, is::<U>() answers false and downcast_ref::<U>()
(and, on an exclusive view, downcast_ref::<U>() and downcast_mut::<U>())
answer None; no operation signals an error. -/
theorem mismatch_downcast_none (r : Ref) (U S' : RustTy)
    (v : BoundedAnyRef) (w : BoundedAnyMut)
    (hv : BoundedAnyRef.from? r = some v) (hw : BoundedAnyMut.from? r = some w)
    (hU : asStatic U = some S') (hne : some S' ≠ asStatic r.ty) :
    v.is U = false ∧ v.downcast_ref U = none ∧
    w.is U = false ∧ w.downcast_ref U = none ∧ w.downcast_mut U = none := by
  obtain ⟨hSv, _⟩ := ref_from?_spec r v hv
  obtain ⟨hSw, _⟩ := mut_from?_spec r w hw
  have hnv : asStatic U ≠ some v.dynTy := by rw [hU, ← hSv]; exact hne
  have hnw : asStatic U ≠ some w.dynTy := by rw [hU, ← hSw]; exact hne
  refine ⟨?_, ?_, ?_, ?_, ?_⟩
  · simp [BoundedAnyRef.is, hnv]
  · simp [BoundedAnyRef.downcast_ref, hnv]
  · simp [BoundedAnyMut.is, hnw]
  · simp [BoundedAnyMut.downcast_ref, hnw]
  · simp [BoundedAnyMut.downcast_mut, hnw]

/-- Witness for C4: a view of an i32 value checked against u32, whose
representative u32 differs from i32. -/
theorem mismatch_downcast_none_witness :
    (BoundedAnyRef.mk (.named 0) .i32 100 (.intV 42) .i32).is .u32 = false ∧
    (BoundedAnyRef.mk (.named 0) .i32 100 (.intV 42) .i32).downcast_ref .u32 = none ∧
    (BoundedAnyMut.mk (.named 0) .i32 100 (.intV 42) .i32).is .u32 = false ∧
    (BoundedAnyMut.mk (.named 0) .i32 100 (.intV 42) .i32).downcast_ref .u32 = none ∧
    (BoundedAnyMut.mk (.named 0) .i32 100 (.intV 42) .i32).downcast_mut .u32 = none :=
  mismatch_downcast_none ⟨.named 0, .i32, 100, .intV 42⟩ .u32 .u32
    ⟨.named 0, .i32, 100, .intV 42, .i32⟩ ⟨.named 0, .i32, 100, .intV 42, .i32⟩
    (by decide) (by decide) (by decide) (by decide)

/-- C5 (code bug at lib.rs line 163): the claim says the representative
of the 1-tuple (T,) is the 1-tuple of T's representative, distinct from
T's own representative.  The code instead writes
`type Static = (A::Static);`, a parenthesized type rather than a
1-tuple, so the representative of (i32,) is i32 itself: the two types
share a representative (and hence a BoundedTypeId), and the
representative of (i32,) is not the 1-tuple (i32,). -/
theorem tuple1_collapses_to_component :
    asStatic (.tuple (.cons .i32 .nil)) = some .i32 ∧
    BoundedTypeId.of? (.tuple (.cons .i32 .nil)) = BoundedTypeId.of? .i32 ∧
    asStatic (.tuple (.cons .i32 .nil)) ≠ some (.tuple (.cons .i32 .nil)) := by
  decide

/-- C6: a fixed-size array of any length up to 32 whose element type has
a Sized representative maps element-wise to the array of the element's
representative, of the same length. -/
theorem array_representative_elementwise (n : Nat) (T S : RustTy)
    (hT : asStatic T = some S) (hsz : isSized S = true) (hn : n ≤ 32) :
    asStatic (.array n T) = some (.array n S) := by
  simp [asStatic, hT, hsz, hn]

/-- Witness for C6 at the 5-element i32 array: the mapping preserves
shape, and a view of such an array identifies and downcasts as one
unit, while arrays differing in length or element representative fail
both is and downcast_ref. -/
theorem array_representative_elementwise_witness :
    asStatic (.array 5 .i32) = some (.array 5 .i32) ∧
    BoundedAnyRef.from? ⟨.named 1, .array 5 .i32, 200, .intV 0⟩ =
      some ⟨.named 1, .array 5 .i32, 200, .intV 0, .array 5 .i32⟩ ∧
    (BoundedAnyRef.mk (.named 1) (.array 5 .i32) 200 (.intV 0) (.array 5 .i32)).is
      (.array 5 .i32) = true ∧
    (BoundedAnyRef.mk (.named 1) (.array 5 .i32) 200 (.intV 0) (.array 5 .i32)).is
      (.array 4 .i32) = false ∧
    (BoundedAnyRef.mk (.named 1) (.array 5 .i32) 200 (.intV 0) (.array 5 .i32)).is
      (.array 5 .u32) = false ∧
    (BoundedAnyRef.mk (.named 1) (.array 5 .i32) 200 (.intV 0) (.array 5 .i32)).downcast_ref
      (.array 5 .i32) = some ⟨.named 1, .array 5 .i32, 200, .intV 0⟩ ∧
    (BoundedAnyRef.mk (.named 1) (.array 5 .i32) 200 (.intV 0) (.array 5 .i32)).downcast_ref
      (.array 4 .i32) = none :=
  ⟨array_representative_elementwise 5 .i32 .i32 rfl rfl (by decide),
   by decide, by decide, by decide, by decide, by decide, by decide⟩

/-- C7 counterexample: the claim says BoundedTypeId supports ordering,
but the derive list on lib.rs line 8 contains neither Ord nor
PartialOrd, so identifiers are not orderable. -/
theorem ordering_not_derived :
    "Ord" ∉ boundedTypeIdDerives ∧ "PartialOrd" ∉ boundedTypeIdDerives := by
  decide

/-- C7 (amended): BoundedTypeId derives Hash, PartialEq and Eq, so
identifiers support hashing and equality as pure functions of the
representative identity: identifiers of types sharing a representative
are equal and hash equal under every hasher, and identifiers of types
with distinct representatives are unequal, so identifiers can serve as
hash-map keys even when the keyed types carry distinct borrow
lifetimes. -/
theorem hash_eq_of_representative (T U S S' : RustTy) (f : RustTy → Nat)
    (hT : asStatic T = some S) (hU : asStatic U = some S') :
    "Hash" ∈ boundedTypeIdDerives ∧ "PartialEq" ∈ boundedTypeIdDerives ∧
    "Eq" ∈ boundedTypeIdDerives ∧
    (S = S' → BoundedTypeId.of? T = BoundedTypeId.of? U ∧
      (BoundedTypeId.of? T).map (BoundedTypeId.hashWith f) =
        (BoundedTypeId.of? U).map (BoundedTypeId.hashWith f)) ∧
    (S ≠ S' → BoundedTypeId.of? T ≠ BoundedTypeId.of? U) := by
  refine ⟨by decide, by decide, by decide, ?_, ?_⟩
  · intro h
    subst h
    unfold BoundedTypeId.of?
    rw [hT, hU]
    exact ⟨rfl, rfl⟩
  · intro h
    unfold BoundedTypeId.of?
    rw [hT, hU]
    simp [BoundedTypeId.mk.injEq]
    exact h

/-- Witness for C7 (amended) at two reference-to-bool types with
distinct borrow lifetimes but the same representative. -/
theorem hash_eq_of_representative_witness :
    BoundedTypeId.of? (.ref (.named 1) .bool) = BoundedTypeId.of? (.ref (.named 2) .bool) ∧
    (BoundedTypeId.of? (.ref (.named 1) .bool)).map (BoundedTypeId.hashWith fun _ => 7) =
      (BoundedTypeId.of? (.ref (.named 2) .bool)).map (BoundedTypeId.hashWith fun _ => 7) :=
  (hash_eq_of_representative (.ref (.named 1) .bool) (.ref (.named 2) .bool)
    (.ref .static .bool) (.ref .static .bool) (fun _ => 7) (by decide) (by decide)).2.2.2.1 rfl

/-- C8: unsupported shapes have no representative mapping: tuples of
arity greater than 5, arrays of length greater than 32 (of any element
type), and fixed containers (slice, array, Vec) whose element's
representative is unsized all map to none, the model of a missing
AsStatic impl, which in Rust is a compile-time rejection. -/
theorem unsupported_shapes_no_mapping (ts : TyList) (n m : Nat) (A T S : RustTy)
    (h6 : 5 < ts.length) (h33 : 32 < n)
    (hT : asStatic T = some S) (hS : isSized S = false) :
    asStatic (.tuple ts) = none ∧
    asStatic (.array n A) = none ∧
    asStatic (.slice T) = none ∧
    asStatic (.array m T) = none ∧
    asStatic (.vec T) = none := by
  refine ⟨?_, ?_, ?_, ?_, ?_⟩
  · rcases ts with _ | ⟨a, _ | ⟨b, ts'⟩⟩
    · simp [TyList.length] at h6
    · simp [TyList.length] at h6
    · have hcond : ¬ (2 ≤ TyList.length (.cons a (.cons b ts')) ∧
          TyList.length (.cons a (.cons b ts')) ≤ 5) := by
        simp only [TyList.length] at h6 ⊢
        omega
      simp [asStatic, hcond]
  · cases hA : asStatic A with
    | none => simp [asStatic, hA]
    | some s =>
      have hc : ¬ (n ≤ 32 ∧ isSized s = true) := by rintro ⟨h1, _⟩; omega
      simp [asStatic, hA, hc]
  · simp [asStatic, hT, hS]
  · simp [asStatic, hT, hS]
  · simp [asStatic, hT, hS]

/-- Witness for C8: a 6-tuple of i32, a 33-element array, and slice,
array and Vec of the unsized type str all have no mapping. -/
theorem unsupported_shapes_no_mapping_witness :
    asStatic (.tuple (.cons .i32 (.cons .i32 (.cons .i32
      (.cons .i32 (.cons .i32 (.cons .i32 .nil))))))) = none ∧
    asStatic (.array 33 .i32) = none ∧
    asStatic (.slice .str) = none ∧
    asStatic (.array 3 .str) = none ∧
    asStatic (.vec .str) = none :=
  unsupported_shapes_no_mapping
    (.cons .i32 (.cons .i32 (.cons .i32 (.cons .i32 (.cons .i32 (.cons .i32 .nil))))))
    33 3 .i32 .str .str (by decide) (by decide) (by decide) (by decide)

/-- C9: a view constructed through From stores as its TypeId field
exactly the dynamic type of its erased reference (for shared and
exclusive views), and is, downcast_ref and downcast_mut are determined
solely by the erased reference's data: two views agreeing on everything
except the stored TypeId field behave identically under every
operation. -/
theorem stored_type_id_invariant (r : Ref) (v v' : BoundedAnyRef)
    (w w' : BoundedAnyMut) (U : RustTy)
    (hv : BoundedAnyRef.from? r = some v) (hw : BoundedAnyMut.from? r = some w)
    (h1 : v'.lt = v.lt) (h2 : v'.dynTy = v.dynTy) (h3 : v'.addr = v.addr) (h4 : v'.val = v.val)
    (g1 : w'.lt = w.lt) (g2 : w'.dynTy = w.dynTy) (g3 : w'.addr = w.addr) (g4 : w'.val = w.val) :
    v.storedTy = v.dynTy ∧ w.storedTy = w.dynTy ∧
    v'.is U = v.is U ∧ v'.downcast_ref U = v.downcast_ref U ∧
    w'.is U = w.is U ∧ w'.downcast_ref U = w.downcast_ref U ∧
    w'.downcast_mut U = w.downcast_mut U := by
  obtain ⟨_, _, _, _, _, hst⟩ := ref_from?_spec r v hv
  obtain ⟨_, _, _, _, _, gst⟩ := mut_from?_spec r w hw
  refine ⟨hst, gst, ?_, ?_, ?_, ?_, ?_⟩ <;>
    simp [BoundedAnyRef.is, BoundedAnyRef.downcast_ref, BoundedAnyMut.is,
      BoundedAnyMut.downcast_ref, BoundedAnyMut.downcast_mut, h1, h2, h3, h4, g1, g2, g3, g4]

/-- Witness for C9: views of an i32 value; the primed views carry a
deliberately different stored TypeId (u32) yet answer every operation
identically. -/
theorem stored_type_id_invariant_witness :
    (BoundedAnyRef.mk (.named 0) .i32 100 (.intV 42) .i32).storedTy =
      (BoundedAnyRef.mk (.named 0) .i32 100 (.intV 42) .i32).dynTy ∧
    (BoundedAnyMut.mk (.named 0) .i32 100 (.intV 42) .i32).storedTy =
      (BoundedAnyMut.mk (.named 0) .i32 100 (.intV 42) .i32).dynTy ∧
    (BoundedAnyRef.mk (.named 0) .i32 100 (.intV 42) .u32).is .i32 =
      (BoundedAnyRef.mk (.named 0) .i32 100 (.intV 42) .i32).is .i32 ∧
    (BoundedAnyRef.mk (.named 0) .i32 100 (.intV 42) .u32).downcast_ref .i32 =
      (BoundedAnyRef.mk (.named 0) .i32 100 (.intV 42) .i32).downcast_ref .i32 ∧
    (BoundedAnyMut.mk (.named 0) .i32 100 (.intV 42) .u32).is .i32 =
      (BoundedAnyMut.mk (.named 0) .i32 100 (.intV 42) .i32).is .i32 ∧
    (BoundedAnyMut.mk (.named 0) .i32 100 (.intV 42) .u32).downcast_ref .i32 =
      (BoundedAnyMut.mk (.named 0) .i32 100 (.intV 42) .i32).downcast_ref .i32 ∧
    (BoundedAnyMut.mk (.named 0) .i32 100 (.intV 42) .u32).downcast_mut .i32 =
      (BoundedAnyMut.mk (.named 0) .i32 100 (.intV 42) .i32).downcast_mut .i32 :=
  stored_type_id_invariant ⟨.named 0, .i32, 100, .intV 42⟩
    ⟨.named 0, .i32, 100, .intV 42, .i32⟩ ⟨.named 0, .i32, 100, .intV 42, .u32⟩
    ⟨.named 0, .i32, 100, .intV 42, .i32⟩ ⟨.named 0, .i32, 100, .intV 42, .u32⟩
    .i32 (by decide) (by decide) rfl rfl rfl rfl rfl rfl rfl rfl

/-- C10: a successful downcast_mut on an exclusive view returns a
reference whose lifetime is the full lifetime of the view's original
borrow, not just the duration of the call; the view is not consumed or
modified, so a second call on the same view succeeds with the same
result, and downcast_ref on the exclusive view likewise returns the
full original lifetime from a shared borrow of the view. -/
theorem downcast_mut_full_lifetime (w : BoundedAnyMut) (U : RustTy) (r r2 : Ref)
    (h : w.downcast_mut U = some r) (h2 : w.downcast_ref U = some r2) :
    r.lt = w.lt ∧ w.downcast_mut U = some r ∧ r2.lt = w.lt := by
  have horig := h
  unfold BoundedAnyMut.downcast_mut at h
  unfold BoundedAnyMut.downcast_ref at h2
  by_cases hc : asStatic U = some w.dynTy
  · rw [if_pos hc] at h h2
    obtain rfl := (Option.some.inj h).symm
    obtain rfl := (Option.some.inj h2).symm
    exact ⟨rfl, horig, rfl⟩
  · rw [if_neg hc] at h
    cases h

/-- Witness for C10 at an exclusive view of an i32 behind the borrow
lifetime named 2: both successive downcast results carry that
lifetime. -/
theorem downcast_mut_full_lifetime_witness :
    (Ref.mk (.named 2) .i32 7 (.intV 1)).lt =
      (BoundedAnyMut.mk (.named 2) .i32 7 (.intV 1) .i32).lt ∧
    (BoundedAnyMut.mk (.named 2) .i32 7 (.intV 1) .i32).downcast_mut .i32 =
      some ⟨.named 2, .i32, 7, .intV 1⟩ ∧
    (Ref.mk (.named 2) .i32 7 (.intV 1)).lt =
      (BoundedAnyMut.mk (.named 2) .i32 7 (.intV 1) .i32).lt :=
  downcast_mut_full_lifetime ⟨.named 2, .i32, 7, .intV 1, .i32⟩ .i32
    ⟨.named 2, .i32, 7, .intV 1⟩ ⟨.named 2, .i32, 7, .intV 1⟩ (by decide) (by decide)

end BoundedAny
